import Mathlib

/-!
Shallow embedding of the transport core of the `poly-fetch` HTTP client
(dispatcher `src/request.js`, H1 transport `src/h1.js`, H2 transport
`src/core/h2.js`, decoder `src/utils.js`, fetch layer `src/fetch/index.js`
with its `Request` class), together with proofs of the specification
claims about these components.

Machine-level JavaScript values that the code inspects (request bodies,
header maps, abort signals) are modelled as explicit inductive types; the
functions below are line-by-line translations of the corresponding
JavaScript, with JS truthiness and `typeof` made explicit.
-/

namespace PolyFetch

/-- ASCII lower-casing of one character (the header names the client
handles are ASCII; `String.prototype.toLowerCase` agrees on them). -/
def lowerChar (c : Char) : Char :=
  if 65 ≤ c.toNat ∧ c.toNat ≤ 90 then Char.ofNat (c.toNat + 32) else c

/-- ASCII upper-casing of one character. -/
def upperChar (c : Char) : Char :=
  if 97 ≤ c.toNat ∧ c.toNat ≤ 122 then Char.ofNat (c.toNat - 32) else c

/-- JavaScript `s.toLowerCase()` restricted to ASCII. -/
def jsToLower (s : String) : String := String.mk (s.data.map lowerChar)

/-- JavaScript `s.toUpperCase()` restricted to ASCII. -/
def jsToUpper (s : String) : String := String.mk (s.data.map upperChar)

/-- Whitespace as matched by `\s` / trimmed by `trim` (the ASCII cases;
header values on the wire contain no exotic whitespace). -/
def isWsChar (c : Char) : Bool :=
  c = ' ' || c = '\t' || c = '\n' || c = '\r' || c = '\x0c' || c = '\x0b'

/-- JavaScript `s.trim()`. -/
def jsTrim (s : String) : String :=
  String.mk (((s.data.dropWhile isWsChar).reverse.dropWhile isWsChar).reverse)

/-- Numeric value of a list of decimal digits. -/
def digitsVal (l : List Char) : Nat :=
  l.foldl (fun acc c => acc * 10 + (c.toNat - 48)) 0

/-- Decimal-string parse: `some n` when the string is a non-empty run of
digits (the shape of well-formed `content-length` values), `none`
otherwise (`NaN`). -/
def parseDecimal (s : String) : Option Nat :=
  if s.data ≠ [] ∧ s.data.all (fun c => 48 ≤ c.toNat ∧ c.toNat ≤ 57) then
    some (digitsVal s.data)
  else none

/-- Model of the JavaScript values that can appear as a request body:
`undefined`, `null`, a string, a `Buffer` (byte list), a `URLSearchParams`
instance, a plain JS object (string-valued fields suffice for the claims),
or a `Readable` stream (identified by an id). -/
inductive JSBody where
  | undef
  | jsNull
  | str (s : String)
  | buffer (bytes : List Nat)
  | searchParams (pairs : List (String × String))
  | plainObj (fields : List (String × String))
  | readable (id : Nat)
deriving DecidableEq, Repr

namespace JSBody

/-- JavaScript truthiness of a body value: `undefined`, `null` and the
empty string are falsy; every object (Buffer, URLSearchParams, plain
object, stream) is truthy. -/
def truthy : JSBody → Bool
  | undef => false
  | jsNull => false
  | str s => !(s = "")
  | buffer _ => true
  | searchParams _ => true
  | plainObj _ => true
  | readable _ => true

/-- JavaScript `typeof b === 'object'`: true for `null` and every object,
false for `undefined` and strings. -/
def typeofObject : JSBody → Bool
  | jsNull => true
  | buffer _ => true
  | searchParams _ => true
  | plainObj _ => true
  | readable _ => true
  | _ => false

/-- JavaScript `b instanceof URLSearchParams`. -/
def isSearchParams : JSBody → Bool
  | searchParams _ => true
  | _ => false

/-- JavaScript `b instanceof Readable`. -/
def isReadable : JSBody → Bool
  | readable _ => true
  | _ => false

/-- JavaScript `b != null` (loose inequality): false exactly for
`undefined` and `null`. -/
def nonNull : JSBody → Bool
  | undef => false
  | jsNull => false
  | _ => true

/-- Rendering of a byte list as a JSON array, as `JSON.stringify` does for
the `data` field of a Buffer. -/
def bytesJson (bytes : List Nat) : String :=
  "[" ++ String.intercalate "," (bytes.map toString) ++ "]"

/-- JavaScript `JSON.stringify` restricted to the body values of the
model. The Buffer case reproduces Node.js exactly
(`\x7b"type":"Buffer","data":[..]\x7d`); the output for exotic objects
(streams) is irrelevant to every claim, only the fact that the result is a
string matters. -/
def jsonStringify : JSBody → String
  | undef => "undefined"
  | jsNull => "null"
  | str s => "\"" ++ s ++ "\""
  | buffer bytes => "\x7b\"type\":\"Buffer\",\"data\":" ++ bytesJson bytes ++ "\x7d"
  | searchParams _ => "\x7b\x7d"
  | plainObj fields =>
      "\x7b" ++ String.intercalate ","
        (fields.map fun kv => "\"" ++ kv.1 ++ "\":\"" ++ kv.2 ++ "\"") ++ "\x7d"
  | readable _ => "\x7b\x7d"

/-- Serialization `URLSearchParams.prototype.toString` (`k=v&k2=v2`;
percent-encoding of reserved characters is omitted, no claim depends on
it). -/
def searchParamsToString (pairs : List (String × String)) : String :=
  String.intercalate "&" (pairs.map fun kv => kv.1 ++ "=" ++ kv.2)

end JSBody

/-! Header maps. The core keeps headers as a plain JS object with
lower-case keys; we model it as an association list (first binding
wins on lookup, assignment replaces). -/

/-- Header map: association list from (lower-cased) names to values. -/
abbrev HeaderMap := List (String × String)

/-- Lookup `headers[name]`; `none` models `undefined`. -/
def hdrGet (hs : HeaderMap) (name : String) : Option String :=
  (hs.find? fun kv => kv.1 = name).map fun kv => kv.2

/-- Assignment `headers[name] = value` (replace-or-insert). -/
def hdrSet (hs : HeaderMap) (name value : String) : HeaderMap :=
  (name, value) :: hs.filter fun kv => !(kv.1 = name)

/-- Deletion `delete headers[name]`. -/
def hdrDelete (hs : HeaderMap) (name : String) : HeaderMap :=
  hs.filter fun kv => !(kv.1 = name)

/-- JavaScript truthiness of a header lookup: `undefined` and the empty
string are falsy. -/
def hdrFalsy (hs : HeaderMap) (name : String) : Bool :=
  match hdrGet hs name with
  | none => true
  | some v => v = ""

namespace CoreRequest

/-- Context fields read by the dispatcher (`src/request.js`). -/
structure Ctx where
  userAgent : Option String := none
  overwriteUserAgent : Bool := false

/-- Request options handed to the dispatcher, after the merge with
`DEFAULT_OPTIONS` (`method: 'GET'`, `compress: true`) in
`src/request.js:132`. -/
structure Opts where
  method : String := "GET"
  headers : HeaderMap := []
  body : JSBody := .undef
  compress : Bool := true
deriving DecidableEq, Repr

/-- Translation of `sanitizeHeaders` (`src/request.js:120-127`): copy the
map, lower-casing every name (later duplicates overwrite). -/
def sanitizeHeaders (hs : HeaderMap) : HeaderMap :=
  hs.foldl (fun acc kv => hdrSet acc (jsToLower kv.1) kv.2) []

/-- Host default (`src/request.js:141-143`): set the `host` header when
none is provided. -/
def applyHost (urlHost : String) (headers : HeaderMap) : HeaderMap :=
  if hdrGet headers "host" = none then hdrSet headers "host" urlHost else headers

/-- User-Agent policy (`src/request.js:145-149`): with a context
user-agent, set the header when it is absent or `overwriteUserAgent` is
on. -/
def applyUserAgent (ctx : Ctx) (headers : HeaderMap) : HeaderMap :=
  match ctx.userAgent with
  | some ua =>
      if hdrFalsy headers "user-agent" || ctx.overwriteUserAgent then
        hdrSet headers "user-agent" ua
      else headers
  | none => headers

/-- Body coercion, the "some header magic" of `src/request.js:150-159`:
a `URLSearchParams` body is serialized and `content-type` is set
unconditionally; otherwise any body with `typeof body === 'object'`
(which includes Buffers and streams) is `JSON.stringify`-ed and
`content-type` defaults to `application/json` when falsy. -/
def applyBodyCoercion (headers : HeaderMap) (body : JSBody) : HeaderMap × JSBody :=
  if body.isSearchParams then
    (hdrSet headers "content-type" "application/x-www-form-urlencoded;charset=UTF-8",
     match body with
     | .searchParams pairs => JSBody.str (JSBody.searchParamsToString pairs)
     | b => b)
  else if body.typeofObject then
    (if hdrFalsy headers "content-type" then hdrSet headers "content-type" "application/json"
     else headers,
     JSBody.str body.jsonStringify)
  else (headers, body)

/-- Accept-Encoding default (`src/request.js:161-163`). -/
def applyAcceptEncoding (compress : Bool) (headers : HeaderMap) : HeaderMap :=
  if compress && hdrFalsy headers "accept-encoding" then
    hdrSet headers "accept-encoding" "gzip,deflate,br"
  else headers

/-- Translation of the normalization part of the dispatcher `request`
(`src/request.js:134-163`): uppercase the method, sanitize the headers,
default the `host` header, apply the user-agent policy, apply the body
coercion and default `accept-encoding`. -/
def normalize (ctx : Ctx) (urlHost : String) (o : Opts) : Opts :=
  let headers := applyUserAgent ctx (applyHost urlHost (sanitizeHeaders o.headers))
  let hb := applyBodyCoercion headers o.body
  { method := jsToUpper o.method,
    headers := applyAcceptEncoding o.compress hb.1,
    body := hb.2,
    compress := o.compress }

end CoreRequest

namespace Utils

/-- Byte streams as the decoder sees them: either the raw socket-backed
response stream, or that stream wrapped by one of the three
decompressors (`pipeline(stream, createGunzip(..))` etc. in
`src/utils.js:42-57`). -/
inductive ByteStream where
  | source (id : Nat)
  | gunzip (s : ByteStream)
  | inflate (s : ByteStream)
  | brotli (s : ByteStream)
deriving DecidableEq, Repr

/-- JavaScript `+v === 0` for a header value `v` (`src/utils.js:24`): an
absent header converts to `NaN` (never 0); a present value converts via
`Number()`, which maps the empty/whitespace string to `0` and a decimal
digit string to its value (non-numeric strings give `NaN`). -/
def jsPlusEqZero : Option String → Bool
  | none => false
  | some v =>
      let t := jsTrim v
      t = "" || (match parseDecimal t with
                 | some n => n = 0
                 | none => false)

/-- Encodings accepted by the regular expression
`/^\s*(?:(x-)?deflate|(x-)?gzip|br)\s*$/` of `src/utils.js:27`; the
`\s*` anchors only admit surrounding whitespace, so the test succeeds
exactly when the trimmed value is one of the five tokens (an absent
header coerces to the string "undefined" and fails the test). -/
def encodingTokens : List String := ["deflate", "x-deflate", "gzip", "x-gzip", "br"]

/-- Result of the regex test on `headers['content-encoding']`. -/
def encodingMatches : Option String → Bool
  | none => false
  | some v => encodingTokens.contains (jsTrim v)

/-- Translation of `shouldDecode` (`src/utils.js:20-28`). -/
def shouldDecode (statusCode : Nat) (headers : HeaderMap) : Bool :=
  if statusCode = 204 || statusCode = 304 then false
  else if jsPlusEqZero (hdrGet headers "content-length") then false
  else encodingMatches (hdrGet headers "content-encoding")

/-- Translation of `decodeStream` (`src/utils.js:30-58`): return the
input unchanged unless `shouldDecode`, otherwise switch on the trimmed
`content-encoding` and wrap with the matching decompressor. -/
def decodeStream (statusCode : Nat) (headers : HeaderMap) (readableStream : ByteStream) :
    ByteStream :=
  if !shouldDecode statusCode headers then readableStream
  else
    match jsTrim ((hdrGet headers "content-encoding").getD "undefined") with
    | "gzip" => .gunzip readableStream
    | "x-gzip" => .gunzip readableStream
    | "deflate" => .inflate readableStream
    | "x-deflate" => .inflate readableStream
    | "br" => .brotli readableStream
    | _ => readableStream

end Utils

namespace H2

/-- One HTTP/2 session as the cache logic sees it: its identity and its
`closed` flag (`session.closed` becomes true once `close()` has been
called; the `close` event fires later). -/
structure Session where
  sid : Nat
  origin : String
  closed : Bool
deriving DecidableEq, Repr

/-- State of one context's H2 layer: the session cache
(`ctx.h2.sessionCache`, a JS object keyed by origin, modelled as an
association list), the set of sessions ever created, and a counter for
fresh session identities. -/
structure State where
  sessionCache : List (String × Nat) := []
  sessions : List Session := []
  nextSid : Nat := 0
deriving DecidableEq, Repr

/-- Lookup `sessionCache[origin]`. -/
def State.cached (s : State) (origin : String) : Option Nat :=
  (s.sessionCache.find? fun kv => kv.1 = origin).map fun kv => kv.2

/-- Lookup `session.closed` for a session id (an id unknown to the state
is treated as closed). -/
def State.isClosed (s : State) (sid : Nat) : Bool :=
  match s.sessions.find? fun ss => ss.sid = sid with
  | some ss => ss.closed
  | none => true

/-- Assignment `sessionCache[origin] = session`
(`src/core/h2.js:199`): replace-or-insert. -/
def cacheSet (cache : List (String × Nat)) (origin : String) (sid : Nat) :
    List (String × Nat) :=
  (origin, sid) :: cache.filter fun kv => !(kv.1 = origin)

/-- Statement `delete sessionCache[origin]`, run by the session close
listener (`src/core/h2.js:182-185`). -/
def cacheDelete (cache : List (String × Nat)) (origin : String) : List (String × Nat) :=
  cache.filter fun kv => !(kv.1 = origin)

/-- Session acquisition of the H2 `request` (`src/core/h2.js:156-208`):
reuse the cached session unless it is absent or closed, otherwise
`connect` a fresh session and insert it (overwriting the entry of the
closed one). Returns the new state and the sid used for the request. -/
def acquire (s : State) (origin : String) : State × Nat :=
  match s.cached origin with
  | some sid =>
      if s.isClosed sid then
        ({ sessionCache := cacheSet s.sessionCache origin s.nextSid,
           sessions := s.sessions ++ [⟨s.nextSid, origin, false⟩],
           nextSid := s.nextSid + 1 }, s.nextSid)
      else (s, sid)
  | none =>
      ({ sessionCache := cacheSet s.sessionCache origin s.nextSid,
         sessions := s.sessions ++ [⟨s.nextSid, origin, false⟩],
         nextSid := s.nextSid + 1 }, s.nextSid)

/-- Events acting on the H2 state: a request needing a session for an
origin; `close()` being called on a session (idle timeout, GOAWAY,
reset), which marks it closed; and the session's `close` event firing,
whose registered listener deletes the cache entry of the origin the
session was created for. -/
inductive Event where
  | request (origin : String)
  | closeCalled (sid : Nat)
  | closeEmitted (sid : Nat)
deriving DecidableEq, Repr

/-- Transition function over events. -/
def step (s : State) (e : Event) : State :=
  match e with
  | .request origin => (acquire s origin).1
  | .closeCalled sid =>
      { s with sessions := s.sessions.map fun ss =>
          if ss.sid = sid then { ss with closed := true } else ss }
  | .closeEmitted sid =>
      match s.sessions.find? fun ss => ss.sid = sid with
      | some ss => { s with sessionCache := cacheDelete s.sessionCache ss.origin }
      | none => s

/-- Execution of an event trace from the initial (empty) state
(`setupContext`, `src/core/h2.js:35-37`). -/
def run (events : List Event) : State :=
  events.foldl step {}

/-- Number of cache entries an origin has in a state. -/
def originCount (s : State) (origin : String) : Nat :=
  s.sessionCache.countP fun kv => kv.1 = origin

end H2

namespace FetchAPI

/-- Abort signal as the fetch layer reads it: only the `aborted` flag is
inspected before dispatch. -/
structure Signal where
  aborted : Bool
deriving DecidableEq, Repr

/-- Init options accepted by the `Request` constructor
(`src/fetch/request.js`). `signalField = some s` models the property
`signal` being present in `init` with value `s` (possibly `null`,
modelled as `none`); `follow` and `compress` are listed because callers
pass them, even though the constructor stores neither. -/
structure InitOptions where
  method : Option String := none
  body : JSBody := .undef
  headers : Option HeaderMap := none
  redirect : Option String := none
  signalField : Option (Option Signal) := none
  counter : Option Nat := none
  follow : Option Nat := none
  compress : Option Bool := none
deriving DecidableEq, Repr

/-- The fields the `Request` constructor actually stores: `INTERNALS`
(`method`, `parsedURL`, `headers`, `redirect`, `signal`) plus the own
property `counter`. There is no `follow` and no `compress` member. -/
structure RequestM where
  method : String
  url : String
  headers : HeaderMap
  redirect : String
  counter : Nat
  body : JSBody
  signal : Option Signal
deriving DecidableEq, Repr

/-- Property access `req.follow` on a `Request`: the class neither stores
the `follow` init option nor defines a getter for it, so the access
yields `undefined`. -/
def RequestM.followProp (_ : RequestM) : Option Nat := none

/-- JavaScript `a || b` on strings (empty string is falsy). -/
def jsOrStr (a : Option String) (b : String) : String :=
  match a with
  | some s => if s = "" then b else s
  | none => b

/-- Method `Headers.prototype.append` (`src/fetch/headers.js`):
lower-case the name; join with `", "` on an existing entry, otherwise
add at the end. -/
def headersAppend (hs : HeaderMap) (name value : String) : HeaderMap :=
  let nm := jsToLower name
  match hdrGet hs nm with
  | some old => hdrSet hs nm (old ++ ", " ++ value)
  | none => hs ++ [(nm, value)]

/-- Constructor `new Headers(init)`: append every entry of the init
map. -/
def headersFromList (l : HeaderMap) : HeaderMap :=
  l.foldl (fun acc kv => headersAppend acc kv.1 kv.2) []

/-- Helper `isPlainObject` (from `src/utils.js` of the fetch layer):
true exactly for plain JS objects. -/
def isPlainObject : JSBody → Bool
  | .plainObj _ => true
  | _ => false

/-- Translation of `guessContentType` (`src/fetch/request.js:366-389`). -/
def guessContentType : JSBody → Option String
  | .jsNull => none
  | .str _ => some "text/plain;charset=UTF-8"
  | .searchParams _ => some "application/x-www-form-urlencoded;charset=UTF-8"
  | .buffer _ => none
  | .readable _ => none
  | _ => some "text/plain;charset=UTF-8"

/-- Method normalization of the `Request` constructor
(`src/fetch/request.js:266-267`): `(init.method || (req && req.method) ||
'GET').toUpperCase()`. -/
def normMethod (input : Sum String RequestM) (init : InitOptions) : String :=
  jsToUpper (jsOrStr init.method
    (match input with
     | .inl _ => "GET"
     | .inr r => jsOrStr (some r.method) "GET"))

/-- Guard of the `Request` constructor
(`src/fetch/request.js:270-274`): a body is supplied (`init.body != null`
or the input request has a non-null body) while the normalized method is
GET or HEAD. -/
def getHeadBodyGuard (input : Sum String RequestM) (init : InitOptions) : Bool :=
  (init.body.nonNull ||
    (match input with | .inl _ => false | .inr r => !(r.body = .jsNull))) &&
  (normMethod input init = "GET" || normMethod input init = "HEAD")

/-- Translation of the `Request` constructor
(`src/fetch/request.js:261-315`). The input is either a URL string or an
existing `Request`; `cloneStream` on a reused body is modelled as the
body value itself (a clone delivers the same bytes). Throwing
`new TypeError(..)` is modelled as `Except.error`. -/
def makeRequest (input : Sum String RequestM) (init : InitOptions) :
    Except String RequestM :=
  let req : Option RequestM := match input with | .inl _ => none | .inr r => some r
  let urlStr : String := match input with | .inl u => u | .inr r => r.url
  let method := normMethod input init
  if getHeadBodyGuard input init then
    Except.error "TypeError: Request with GET/HEAD method cannot have body"
  else
    let body :=
      if init.body.truthy then init.body
      else match req with
        | some r => if r.body.truthy then r.body else .jsNull
        | none => .jsNull
    let headers := headersFromList
      (match init.headers with
       | some h => h
       | none => match req with | some r => r.headers | none => [])
    let (body, headers) :=
      if !(body = .jsNull) && (hdrGet headers "content-type").isNone then
        if isPlainObject body then
          (JSBody.str body.jsonStringify,
           headersAppend headers "content-type" "application/json")
        else
          match guessContentType body with
          | some ct => (body, headersAppend headers "content-type" ct)
          | none => (body, headers)
      else (body, headers)
    let signal : Option Signal :=
      match init.signalField with
      | some s => s
      | none => match req with | some r => r.signal | none => none
    let redirect :=
      jsOrStr init.redirect
        (match req with
         | some r => jsOrStr (some r.redirect) "follow"
         | none => "follow")
    let inputCounter : Nat := match input with | .inl _ => 0 | .inr r => r.counter
    let counter :=
      match init.counter with
      | some n => if n = 0 then inputCounter else n
      | none => inputCounter
    Except.ok
      { method := method, url := urlStr, headers := headers, redirect := redirect,
        counter := counter, body := body, signal := signal }

/-- JavaScript `counter >= follow` where `follow` may be `undefined`
(`src/fetch/index.js:130`): a comparison against `undefined` is `NaN`
ordered and always false. -/
def jsGE (counter : Nat) : Option Nat → Bool
  | none => false
  | some n => n ≤ counter

/-- Resolution `new URL(location, base).toString()`: absolute locations
stand, relative ones are resolved against the base (modelled by
concatenation; no claim inspects the resolved text). -/
def resolveURL (base loc : String) : String :=
  if List.isPrefixOf "http".data loc.data then loc else base ++ loc

/-- Outcome of the redirect handling of one core response inside `fetch`
(`src/fetch/index.js:101-201`). -/
inductive Outcome where
  | response (status : Nat) (headers : HeaderMap)
  | dispatchRedirect (location : String) (init : InitOptions)
  | failure (kind : String)
deriving DecidableEq, Repr

/-- Translation of the redirect state machine of `fetch`
(`src/fetch/index.js:101-201`): `req` is the current `Request`,
`optionsBody` the `body` member of the options object `fetch` was called
with, `statusCode`/`headers` the core response. `throw new
FetchError(.., type)` is modelled as `Outcome.failure type`;
recursion through `fetch(ctx, new Request(locationURL, requestOptions))`
is modelled as `Outcome.dispatchRedirect` carrying the request options of
the new `Request`. -/
def handleResponse (req : RequestM) (optionsBody : JSBody) (statusCode : Nat)
    (headers : HeaderMap) : Outcome :=
  if statusCode = 301 || statusCode = 302 || statusCode = 303 ||
     statusCode = 307 || statusCode = 308 then
    let location := hdrGet headers "location"
    if req.redirect = "error" then .failure "no-redirect"
    else if req.redirect = "manual" then
      match location with
      | some loc => .response statusCode (hdrSet headers "location" (resolveURL req.url loc))
      | none => .response statusCode headers
    else if req.redirect = "follow" then
      match location with
      | none => .response statusCode headers
      | some loc =>
          if jsGE req.counter req.followProp then .failure "max-redirect"
          else
            let requestOptions : InitOptions :=
              { headers := some req.headers,
                follow := req.followProp,
                compress := none,
                counter := some (req.counter + 1),
                method := some req.method,
                body := req.body,
                signalField := some req.signal }
            if !(statusCode = 303) && req.body.truthy && optionsBody.isReadable then
              .failure "unsupported-redirect"
            else
              let requestOptions :=
                if statusCode = 303 ||
                   ((statusCode = 301 || statusCode = 302) && req.method = "POST") then
                  { requestOptions with
                      method := some "GET",
                      body := .undef,
                      headers := some (hdrDelete req.headers "content-length") }
                else requestOptions
              .dispatchRedirect (resolveURL req.url loc) requestOptions
    else .response statusCode headers
  else .response statusCode headers

/-- Result of the pre-dispatch phase of `fetch`
(`src/fetch/index.js:39-58`). -/
inductive Preflight where
  | abortError
  | dispatched
deriving DecidableEq, Repr

/-- Translation of the pre-dispatch abort check of `fetch`
(`src/fetch/index.js:39-47`): an already-fired signal throws
`AbortError` before the core `request` is invoked. The second component
counts the core transport dispatches the call performs (0 when aborted
early, 1 for the single `await request(..)` otherwise). -/
def preflight (req : RequestM) : Preflight × Nat :=
  match req.signal with
  | some sg => if sg.aborted then (.abortError, 0) else (.dispatched, 1)
  | none => (.dispatched, 1)

end FetchAPI

namespace Alpn

/-- Modelled from the spec: the ALPN cache. The dispatcher instantiates
the external `lru-cache` dependency (`new LRU(max, maxAge)` at
`src/request.js:203`), whose implementation is not part of this
repository; the spec describes its contract as a bounded LRU with TTL
where "an entry is evicted no later than its expiry; a cache hit returns
a protocol that the peer has advertised within the TTL". Entries are
`(origin, protocol, insertedAt)`, most recent first. -/
structure AlpnCache where
  maxAge : Nat
  maxSize : Nat
  entries : List (String × String × Nat) := []
deriving Repr

/-- Modelled from the spec: `set(origin, protocol)` at time `now` —
remove any previous entry for the origin, add the new one in front,
evict beyond `maxSize` entries (LRU bound). -/
def AlpnCache.set (c : AlpnCache) (origin protocol : String) (now : Nat) : AlpnCache :=
  { c with entries :=
      ((origin, protocol, now) :: c.entries.filter fun e => !(e.1 = origin)).take c.maxSize }

/-- Modelled from the spec: `get(origin)` at time `now` — a hit only for
an entry whose age has not exceeded `maxAge` (a stale entry is treated as
evicted and never returned). -/
def AlpnCache.get (c : AlpnCache) (origin : String) (now : Nat) : Option String :=
  match c.entries.find? fun e => e.1 = origin with
  | some e => if now ≤ e.2.2 + c.maxAge then some e.2.1 else none
  | none => none

/-- Protocols the dispatcher ever stores for an origin
(`src/request.js:83-117`): the synthetic seeds for the plain-text
schemes, the protocol negotiated by the peer during the ALPN handshake,
or the `http/1.1` fallback when ALPN did not occur. -/
inductive StoredProtocol (advertised : String → Prop) : String → Prop where
  | seedHttp1 : StoredProtocol advertised "http/1.1"
  | seedH2c : StoredProtocol advertised "h2c"
  | negotiated (p : String) (h : advertised p) : StoredProtocol advertised p

/-- Run of a trace of `set` operations `(origin, protocol, time)` from a
starting cache. -/
def runSets (c0 : AlpnCache) (ops : List (String × String × Nat)) : AlpnCache :=
  ops.foldl (fun c op => c.set op.1 op.2.1 op.2.2) c0

end Alpn

/-! Helper lemmas about header maps. -/

theorem hdrGet_hdrSet_self (hs : HeaderMap) (n v : String) :
    hdrGet (hdrSet hs n v) n = some v := by
  simp [hdrGet, hdrSet]

theorem hdrGet_hdrSet_ne (hs : HeaderMap) (n v m : String) (h : n ≠ m) :
    hdrGet (hdrSet hs n v) m = hdrGet hs m := by
  simp only [hdrGet, hdrSet]
  rw [List.find?_cons_of_neg _ (by simpa using h)]
  congr 1
  induction hs with
  | nil => rfl
  | cons hd tl ih =>
      by_cases hh : hd.1 = n
      · rw [List.filter_cons_of_neg (by simpa using hh)]
        rw [List.find?_cons_of_neg _ (by simp [hh]; exact h)]
        exact ih
      · rw [List.filter_cons_of_pos (by simpa using hh)]
        by_cases hm : hd.1 = m
        · rw [List.find?_cons_of_pos _ (by simpa using hm),
            List.find?_cons_of_pos _ (by simpa using hm)]
        · rw [List.find?_cons_of_neg _ (by simpa using hm),
            List.find?_cons_of_neg _ (by simpa using hm)]
          exact ih

theorem find?_filter_ne (l : List (String × Nat)) (o : String) :
    (l.filter fun kv => !(kv.1 = o)).find? (fun kv => kv.1 = o) = none := by
  induction l with
  | nil => rfl
  | cons hd tl ih =>
      by_cases h : hd.1 = o
      · rw [List.filter_cons_of_neg (by simpa using h)]; exact ih
      · rw [List.filter_cons_of_pos (by simpa using h)]
        rw [List.find?_cons_of_neg _ (by simpa using h)]
        exact ih

theorem hdrGet_hdrDelete_self (hs : HeaderMap) (n : String) :
    hdrGet (hdrDelete hs n) n = none := by
  simp only [hdrGet, hdrDelete]
  induction hs with
  | nil => rfl
  | cons hd tl ih =>
      by_cases h : hd.1 = n
      · rw [List.filter_cons_of_neg (by simpa using h)]; exact ih
      · rw [List.filter_cons_of_pos (by simpa using h)]
        rw [List.find?_cons_of_neg _ (by simpa using h)]
        exact ih

theorem mem_hdrDelete (hs : HeaderMap) (n : String) (kv : String × String)
    (h : kv ∈ hdrDelete hs n) : kv ∈ hs ∧ kv.1 ≠ n := by
  unfold hdrDelete at h
  have h1 := List.mem_filter.mp h
  exact ⟨h1.1, by simpa using h1.2⟩

namespace FetchAPI

theorem hdrGet_append_none (l1 l2 : HeaderMap) (m : String)
    (h1 : hdrGet l1 m = none) (h2 : hdrGet l2 m = none) :
    hdrGet (l1 ++ l2) m = none := by
  simp only [hdrGet, Option.map_eq_none'] at h1 h2 ⊢
  rw [List.find?_append, h1, h2]
  rfl

theorem headersAppend_get_ne (hs : HeaderMap) (k v m : String)
    (hk : jsToLower k ≠ m) (h : hdrGet hs m = none) :
    hdrGet (headersAppend hs k v) m = none := by
  unfold headersAppend
  cases hf : hdrGet hs (jsToLower k) with
  | some old =>
      simp only [hf]
      rw [hdrGet_hdrSet_ne _ _ _ _ hk]
      exact h
  | none =>
      simp only [hf]
      refine hdrGet_append_none _ _ _ h ?_
      simp [hdrGet, List.find?, hk]

theorem headersFromList_get_none (l : HeaderMap) (m : String)
    (h : ∀ kv ∈ l, jsToLower kv.1 ≠ m) :
    hdrGet (headersFromList l) m = none := by
  unfold headersFromList
  suffices hgen : ∀ acc : HeaderMap, hdrGet acc m = none →
      hdrGet (l.foldl (fun acc kv => headersAppend acc kv.1 kv.2) acc) m = none by
    exact hgen [] rfl
  induction l with
  | nil => intro acc hacc; exact hacc
  | cons hd tl ih =>
      intro acc hacc
      have hhd : jsToLower hd.1 ≠ m := h hd (List.mem_cons_self hd tl)
      exact ih (fun kv hkv => h kv (List.mem_cons_of_mem hd hkv)) _
        (headersAppend_get_ne acc hd.1 hd.2 m hhd hacc)

end FetchAPI

namespace Utils

/-- Size strictly grows under each wrapper, so a wrapped stream is never
equal to the stream it wraps. -/
theorem wrap_ne (s : ByteStream) :
    ByteStream.gunzip s ≠ s ∧ ByteStream.inflate s ≠ s ∧ ByteStream.brotli s ≠ s := by
  refine ⟨?_, ?_, ?_⟩ <;>
    · intro h
      have hs := congrArg sizeOf h
      simp [ByteStream.gunzip.sizeOf_spec, ByteStream.inflate.sizeOf_spec,
        ByteStream.brotli.sizeOf_spec] at hs

end Utils

namespace H2

theorem countP_filter_ne (cache : List (String × Nat)) (origin : String) :
    (cache.filter fun kv => !(kv.1 = origin)).countP (fun kv => kv.1 = origin) = 0 := by
  induction cache with
  | nil => rfl
  | cons hd tl ih =>
      by_cases h : hd.1 = origin
      · simp [List.filter, h, ih]
      · simp [List.filter, h, List.countP_cons, ih]

theorem countP_cacheSet (cache : List (String × Nat)) (origin o : String) (sid : Nat) :
    (cacheSet cache origin sid).countP (fun kv => kv.1 = o) ≤
      max 1 (cache.countP fun kv => kv.1 = o) := by
  unfold cacheSet
  by_cases h : origin = o
  · subst h
    simp [List.countP_cons, countP_filter_ne]
  · have hle : ((cache.filter fun kv => !(kv.1 = origin)).countP fun kv => kv.1 = o) ≤
        cache.countP fun kv => kv.1 = o := by
      simpa using List.Sublist.countP_le (p := fun kv => decide (kv.1 = o))
        (List.filter_sublist cache)
    have hne : (decide ((origin, sid).1 = o)) = false := by simpa using h
    simp only [List.countP_cons, hne, Bool.false_eq_true, if_false]
    omega

theorem countP_cacheDelete (cache : List (String × Nat)) (origin o : String) :
    (cacheDelete cache origin).countP (fun kv => kv.1 = o) ≤
      cache.countP fun kv => kv.1 = o := by
  simpa using List.Sublist.countP_le (p := fun kv => decide (kv.1 = o))
    (List.filter_sublist cache)

/-- Cache shape after session acquisition: either untouched (reuse) or a
`cacheSet` of a fresh session id. -/
theorem acquire_cache (s : State) (origin : String) :
    (acquire s origin).1.sessionCache = s.sessionCache ∨
    (acquire s origin).1.sessionCache = cacheSet s.sessionCache origin s.nextSid := by
  unfold acquire
  cases hc : s.cached origin with
  | some sid =>
      by_cases hcl : s.isClosed sid
      · right; simp [hcl]
      · left; simp [hcl]
  | none => right; simp

/-- Inductive invariant: every origin has at most one cache entry. -/
theorem step_originCount (s : State) (e : Event) (o : String)
    (h : originCount s o ≤ 1) : originCount (step s e) o ≤ 1 := by
  cases e with
  | request origin =>
      show originCount (acquire s origin).1 o ≤ 1
      rcases acquire_cache s origin with hcase | hcase
      · simpa [originCount, hcase] using h
      · have := countP_cacheSet s.sessionCache origin o s.nextSid
        unfold originCount at h ⊢
        rw [hcase]
        omega
  | closeCalled sid => simpa [step, originCount] using h
  | closeEmitted sid =>
      unfold step originCount
      unfold originCount at h
      cases hf : s.sessions.find? fun ss => ss.sid = sid with
      | some ss =>
          simp only [hf]
          have := countP_cacheDelete s.sessionCache ss.origin o
          omega
      | none => simp only [hf]; exact h

theorem run_originCount (events : List Event) (o : String) :
    originCount (run events) o ≤ 1 := by
  suffices h : ∀ s : State, originCount s o ≤ 1 →
      originCount (events.foldl step s) o ≤ 1 by
    refine h {} ?_
    show List.countP _ ([] : List (String × Nat)) ≤ 1
    simp
  induction events with
  | nil => intro s hs; simpa using hs
  | cons e tl ih => intro s hs; exact ih (step s e) (step_originCount s e o hs)

end H2

namespace Alpn

theorem mem_set_entries (c : AlpnCache) (origin protocol : String) (now : Nat)
    (e : String × String × Nat) (h : e ∈ (c.set origin protocol now).entries) :
    e = (origin, protocol, now) ∨ e ∈ c.entries := by
  unfold AlpnCache.set at h
  have h1 := (List.take_sublist _ _).mem h
  rcases List.mem_cons.mp h1 with h2 | h2
  · exact Or.inl h2
  · exact Or.inr ((List.filter_sublist _).mem h2)

theorem runSets_entries (c0 : AlpnCache) (ops : List (String × String × Nat))
    (e : String × String × Nat) (h : e ∈ (runSets c0 ops).entries) :
    e ∈ c0.entries ∨ e ∈ ops := by
  induction ops generalizing c0 with
  | nil => exact Or.inl h
  | cons op tl ih =>
      rcases ih (c0.set op.1 op.2.1 op.2.2) h with h1 | h1
      · rcases mem_set_entries c0 op.1 op.2.1 op.2.2 e h1 with h2 | h2
        · right; simp [h2]
        · exact Or.inl h2
      · right; exact List.mem_cons_of_mem _ h1

theorem get_fresh (c : AlpnCache) (origin : String) (now : Nat) (p : String)
    (h : c.get origin now = some p) :
    ∃ t, (origin, p, t) ∈ c.entries ∧ now ≤ t + c.maxAge := by
  unfold AlpnCache.get at h
  cases hf : c.entries.find? fun e => e.1 = origin with
  | none => rw [hf] at h; exact absurd h (by simp)
  | some e =>
      rw [hf] at h
      change (if now ≤ e.2.2 + c.maxAge then some e.2.1 else none) = some p at h
      by_cases hle : now ≤ e.2.2 + c.maxAge
      · refine ⟨e.2.2, ?_, hle⟩
        have hmem := List.mem_of_find?_eq_some hf
        have hp := List.find?_some hf
        have h1 : e.1 = origin := by simpa using hp
        have h2 : e.2.1 = p := by
          rw [if_pos hle] at h
          exact Option.some.inj h
        have : e = (origin, p, e.2.2) := by
          rcases e with ⟨a, b, t⟩
          simp only at h1 h2
          rw [h1, h2]
        rwa [this] at hmem
      · rw [if_neg hle] at h
        exact absurd h (by simp)

end Alpn

theorem Alpn.runSets_maxAge (c : Alpn.AlpnCache) (ops : List (String × String × Nat)) :
    (Alpn.runSets c ops).maxAge = c.maxAge := by
  induction ops generalizing c with
  | nil => rfl
  | cons op tl ih => exact ih _

theorem truthy_jsNull : JSBody.truthy JSBody.jsNull = false := rfl

theorem FetchAPI.truthy_false_of_nonNull_false (b : JSBody) (h : b.nonNull = false) :
    b.truthy = false := by
  cases b <;> simp [JSBody.nonNull, JSBody.truthy] at h ⊢

theorem hdrFalsy_of_some (hs : HeaderMap) (n v : String)
    (h : hdrGet hs n = some v) (hv : ¬ v = "") : hdrFalsy hs n = false := by
  unfold hdrFalsy
  rw [h]
  simpa using hv

theorem CoreRequest.applyHost_ct (host : String) (hs : HeaderMap) :
    hdrGet (CoreRequest.applyHost host hs) "content-type" = hdrGet hs "content-type" := by
  unfold CoreRequest.applyHost
  by_cases h : hdrGet hs "host" = none
  · rw [if_pos h, hdrGet_hdrSet_ne _ _ _ _ (by decide)]
  · rw [if_neg h]

theorem CoreRequest.applyUserAgent_ct (ctx : CoreRequest.Ctx) (hs : HeaderMap) :
    hdrGet (CoreRequest.applyUserAgent ctx hs) "content-type" =
      hdrGet hs "content-type" := by
  unfold CoreRequest.applyUserAgent
  cases ctx.userAgent with
  | none => rfl
  | some ua =>
      by_cases h : (hdrFalsy hs "user-agent" || ctx.overwriteUserAgent) = true
      · simp only [h, if_true]
        rw [hdrGet_hdrSet_ne _ _ _ _ (by decide)]
      · simp only [h]
        rw [if_neg (by simp [h])]

theorem CoreRequest.applyAcceptEncoding_ct (c : Bool) (hs : HeaderMap) :
    hdrGet (CoreRequest.applyAcceptEncoding c hs) "content-type" =
      hdrGet hs "content-type" := by
  unfold CoreRequest.applyAcceptEncoding
  by_cases h : (c && hdrFalsy hs "accept-encoding") = true
  · simp only [h, if_true]
    rw [hdrGet_hdrSet_ne _ _ _ _ (by decide)]
  · simp only [h]
    rw [if_neg (by simp [h])]

theorem Utils.shouldDecode_false_iff (status : Nat) (headers : HeaderMap) :
    Utils.shouldDecode status headers = false ↔
      (status = 204 ∨ status = 304 ∨
       Utils.jsPlusEqZero (hdrGet headers "content-length") = true ∨
       ∀ enc, hdrGet headers "content-encoding" = some enc →
         ¬ jsTrim enc ∈ Utils.encodingTokens) := by
  unfold Utils.shouldDecode
  by_cases h1 : status = 204
  · simp [h1]
  by_cases h2 : status = 304
  · simp [h2]
  rw [if_neg (by simp [h1, h2])]
  by_cases h3 : Utils.jsPlusEqZero (hdrGet headers "content-length") = true
  · simp [h1, h2, h3]
  · rw [if_neg h3]
    simp only [h1, h2, h3, false_or]
    cases he : hdrGet headers "content-encoding" with
    | none => simp [Utils.encodingMatches]
    | some v =>
        simp only [Utils.encodingMatches]
        constructor
        · intro hc
          refine Or.inr ?_
          intro enc henc
          obtain rfl := Option.some.inj henc
          simpa using hc
        · intro hall
          rcases hall with hfalse | hall
          · exact absurd hfalse (by simp)
          · have hv := hall v rfl
            simpa using hv

theorem Utils.encodingTokens_cases (t : String) (h : t ∈ Utils.encodingTokens) :
    t = "deflate" ∨ t = "x-deflate" ∨ t = "gzip" ∨ t = "x-gzip" ∨ t = "br" := by
  simpa [Utils.encodingTokens] using h

theorem Utils.shouldDecode_true_parts (status : Nat) (headers : HeaderMap)
    (h : Utils.shouldDecode status headers = true) :
    ∃ enc, hdrGet headers "content-encoding" = some enc ∧
      jsTrim enc ∈ Utils.encodingTokens := by
  unfold Utils.shouldDecode at h
  by_cases h1 : (status = 204 || status = 304) = true
  · rw [if_pos (by simpa using h1)] at h
    exact absurd h (by simp)
  · rw [if_neg (by simpa using h1)] at h
    by_cases h3 : Utils.jsPlusEqZero (hdrGet headers "content-length") = true
    · rw [if_pos h3] at h
      exact absurd h (by simp)
    · rw [if_neg h3] at h
      cases he : hdrGet headers "content-encoding" with
      | none => rw [he] at h; exact absurd h (by simp [Utils.encodingMatches])
      | some v =>
          rw [he] at h
          refine ⟨v, rfl, ?_⟩
          simpa [Utils.encodingMatches] using h

theorem FetchAPI.handleResponse_follow_eq (req : FetchAPI.RequestM)
    (optionsBody : JSBody) (status : Nat) (headers : HeaderMap) (loc : String)
    (hred : req.redirect = "follow")
    (htop : status = 301 ∨ status = 302 ∨ status = 303 ∨ status = 307 ∨ status = 308)
    (hloc : hdrGet headers "location" = some loc) :
    FetchAPI.handleResponse req optionsBody status headers =
      (if !(status = 303) && req.body.truthy && optionsBody.isReadable then
        FetchAPI.Outcome.failure "unsupported-redirect"
      else
        FetchAPI.Outcome.dispatchRedirect (FetchAPI.resolveURL req.url loc)
          (if status = 303 || ((status = 301 || status = 302) && req.method = "POST") then
            { headers := some (hdrDelete req.headers "content-length"),
              counter := some (req.counter + 1), method := some "GET",
              body := .undef, signalField := some req.signal }
          else
            { headers := some req.headers, counter := some (req.counter + 1),
              method := some req.method, body := req.body,
              signalField := some req.signal })) := by
  rcases htop with rfl | rfl | rfl | rfl | rfl <;>
    simp [FetchAPI.handleResponse, hred, hloc, FetchAPI.RequestM.followProp,
      FetchAPI.jsGE]

/-! Claim theorems. -/

/-- Claim C1: the claim states that the dispatcher's body coercion
(`src/request.js:151-159`) leaves buffer and string bodies unchanged.
String bodies are indeed left unchanged (first conjunct), but a Buffer
satisfies `typeof body === 'object'`, so the `else if` branch
`JSON.stringify`-s it: the POST body Buffer "hello" (bytes
104 101 108 108 111) is turned into the JSON rendering of the Buffer
object and is no longer the original buffer, so an echo endpoint cannot
return it byte-for-byte (second and third conjuncts evaluate the code at
that failing input). -/
theorem claim_C1_buffer_body_not_preserved :
    (∀ (ctx : CoreRequest.Ctx) (host : String) (hdrs : HeaderMap) (s : String) (c : Bool),
      (CoreRequest.normalize ctx host
        { method := "POST", headers := hdrs, body := .str s, compress := c }).body =
        JSBody.str s)
    ∧ (CoreRequest.normalize {} "example.com"
        { method := "POST", body := .buffer [104, 101, 108, 108, 111] }).body =
      JSBody.str "\x7b\"type\":\"Buffer\",\"data\":[104,101,108,108,111]\x7d"
    ∧ (CoreRequest.normalize {} "example.com"
        { method := "POST", body := .buffer [104, 101, 108, 108, 111] }).body ≠
      JSBody.buffer [104, 101, 108, 108, 111] := by
  refine ⟨fun ctx host hdrs s c => ?_, by decide, by decide⟩
  simp [CoreRequest.normalize, CoreRequest.applyBodyCoercion, JSBody.isSearchParams,
    JSBody.typeofObject]

/-- Claim C2: the claim states that once the redirect counter reaches the
`follow` limit (`follow: 0` disallowing any redirect) fetch fails with a
max-redirect error. The `Request` class stores no `follow` member
(`src/fetch/request.js:304-315`), so `req.counter >= req.follow` at
`src/fetch/index.js:130` compares against `undefined` and is always
false: with `follow: 0` and a 307 response carrying a location, the code
follows the redirect (`dispatchRedirect`) instead of failing with
max-redirect. -/
theorem claim_C2_follow_option_dropped :
    (FetchAPI.makeRequest (Sum.inl "https://httpstat.us/307")
        { follow := some 0 }).map
      (fun r => FetchAPI.handleResponse r .undef 307 [("location", "https://httpstat.us/")])
    = Except.ok (FetchAPI.Outcome.dispatchRedirect "https://httpstat.us/"
        { method := some "GET", body := .jsNull, headers := some [],
          signalField := some none, counter := some 1 }) := by
  rfl

/-- Claim C7: the claim states that the dispatcher leaves an explicit
`content-type` unchanged when coercing a URLSearchParams body. The
URLSearchParams branch of `src/request.js:151-153` sets `content-type`
unconditionally: with an explicit `content-type: text/plain` and a
URLSearchParams body, the header comes out as the form-encoded type. -/
theorem claim_C7_counterexample :
    hdrGet ((CoreRequest.normalize {} "example.com"
        { method := "POST", headers := [("content-type", "text/plain")],
          body := .searchParams [("a", "b")] }).headers) "content-type" =
      some "application/x-www-form-urlencoded;charset=UTF-8" := by
  decide

/-- Claim C7 (amended): the JSON content-type hint is applied only when
no (truthy) explicit `content-type` is present — a plain-object body
leaves an explicit non-empty `content-type` unchanged — but the
URLSearchParams branch of `src/request.js:151-153` always overwrites
`content-type` with the form-encoded type, explicit header or not. -/
theorem claim_C7_content_type_hints (ctx : CoreRequest.Ctx) (host : String)
    (hdrs : HeaderMap) (ct : String)
    (hct : hdrGet (CoreRequest.sanitizeHeaders hdrs) "content-type" = some ct)
    (hne : ¬ ct = "") :
    (∀ (fields : List (String × String)) (m : String) (c : Bool),
      hdrGet ((CoreRequest.normalize ctx host
        { method := m, headers := hdrs, body := .plainObj fields, compress := c }).headers)
        "content-type" = some ct)
    ∧ (∀ (ps : List (String × String)) (m : String) (c : Bool),
      hdrGet ((CoreRequest.normalize ctx host
        { method := m, headers := hdrs, body := .searchParams ps, compress := c }).headers)
        "content-type" = some "application/x-www-form-urlencoded;charset=UTF-8") := by
  have hchain : hdrGet (CoreRequest.applyUserAgent ctx
      (CoreRequest.applyHost host (CoreRequest.sanitizeHeaders hdrs)))
      "content-type" = some ct := by
    rw [CoreRequest.applyUserAgent_ct, CoreRequest.applyHost_ct]
    exact hct
  constructor
  · intro fields m c
    unfold CoreRequest.normalize
    dsimp only
    rw [CoreRequest.applyAcceptEncoding_ct]
    unfold CoreRequest.applyBodyCoercion
    simp only [JSBody.isSearchParams, JSBody.typeofObject, Bool.false_eq_true, if_false,
      if_true]
    rw [hdrFalsy_of_some _ _ _ hchain hne]
    simp only [Bool.false_eq_true, if_false]
    exact hchain
  · intro ps m c
    unfold CoreRequest.normalize
    dsimp only
    rw [CoreRequest.applyAcceptEncoding_ct]
    unfold CoreRequest.applyBodyCoercion
    simp only [JSBody.isSearchParams, if_true]
    exact hdrGet_hdrSet_self _ _ _

/-- Witness for the amended C7 at a concrete request: explicit
`content-type: text/plain` survives a plain-object body and is
overwritten by a URLSearchParams body. -/
theorem claim_C7_amended_witness :
    hdrGet ((CoreRequest.normalize {} "example.com"
        { method := "POST", headers := [("content-type", "text/plain")],
          body := .plainObj [("foo", "bar")], compress := true }).headers)
      "content-type" = some "text/plain"
    ∧ hdrGet ((CoreRequest.normalize {} "example.com"
        { method := "POST", headers := [("content-type", "text/plain")],
          body := .searchParams [("a", "b")], compress := true }).headers)
      "content-type" = some "application/x-www-form-urlencoded;charset=UTF-8" :=
  ⟨(claim_C7_content_type_hints {} "example.com" [("content-type", "text/plain")]
      "text/plain" (by decide) (by decide)).1 [("foo", "bar")] "POST" true,
   (claim_C7_content_type_hints {} "example.com" [("content-type", "text/plain")]
      "text/plain" (by decide) (by decide)).2 [("a", "b")] "POST" true⟩

/-- Claim C8: `decodeStream` returns the input unchanged exactly when the
status is 204 or 304, or `content-length` converts to 0, or
`content-encoding` is absent or not one of
gzip/x-gzip/deflate/x-deflate/br; otherwise it wraps the input with the
decompressor matching the (trimmed) encoding
(`src/utils.js:20-58`). -/
theorem claim_C8_decode_stream (status : Nat) (headers : HeaderMap)
    (s : Utils.ByteStream) :
    (Utils.decodeStream status headers s = s ↔
      (status = 204 ∨ status = 304 ∨
       Utils.jsPlusEqZero (hdrGet headers "content-length") = true ∨
       ∀ enc, hdrGet headers "content-encoding" = some enc →
         ¬ jsTrim enc ∈ Utils.encodingTokens))
    ∧ (Utils.shouldDecode status headers = true →
       ∃ enc, hdrGet headers "content-encoding" = some enc ∧
         (((jsTrim enc = "gzip" ∨ jsTrim enc = "x-gzip") ∧
            Utils.decodeStream status headers s = .gunzip s) ∨
          ((jsTrim enc = "deflate" ∨ jsTrim enc = "x-deflate") ∧
            Utils.decodeStream status headers s = .inflate s) ∨
          (jsTrim enc = "br" ∧
            Utils.decodeStream status headers s = .brotli s))) := by
  have hwrap : ∀ st hs, Utils.shouldDecode st hs = true →
      ∃ enc, hdrGet hs "content-encoding" = some enc ∧
        (((jsTrim enc = "gzip" ∨ jsTrim enc = "x-gzip") ∧
           Utils.decodeStream st hs s = .gunzip s) ∨
         ((jsTrim enc = "deflate" ∨ jsTrim enc = "x-deflate") ∧
           Utils.decodeStream st hs s = .inflate s) ∨
         (jsTrim enc = "br" ∧ Utils.decodeStream st hs s = .brotli s)) := by
    intro st hs hsd
    obtain ⟨enc, he, hmem⟩ := Utils.shouldDecode_true_parts st hs hsd
    have hds : Utils.decodeStream st hs s =
        match jsTrim ((hdrGet hs "content-encoding").getD "undefined") with
        | "gzip" => .gunzip s
        | "x-gzip" => .gunzip s
        | "deflate" => .inflate s
        | "x-deflate" => .inflate s
        | "br" => .brotli s
        | _ => s := by
      unfold Utils.decodeStream
      rw [hsd]
      rfl
    rw [he, Option.getD_some] at hds
    rcases Utils.encodingTokens_cases _ hmem with ht | ht | ht | ht | ht <;>
      rw [ht] at hds
    · exact ⟨enc, he, Or.inr (Or.inl ⟨Or.inl ht, hds⟩)⟩
    · exact ⟨enc, he, Or.inr (Or.inl ⟨Or.inr ht, hds⟩)⟩
    · exact ⟨enc, he, Or.inl ⟨Or.inl ht, hds⟩⟩
    · exact ⟨enc, he, Or.inl ⟨Or.inr ht, hds⟩⟩
    · exact ⟨enc, he, Or.inr (Or.inr ⟨ht, hds⟩)⟩
  constructor
  · constructor
    · intro hd
      by_cases hsd : Utils.shouldDecode status headers = true
      · exfalso
        obtain ⟨enc, he, hcase⟩ := hwrap status headers hsd
        rcases hcase with ⟨-, hds⟩ | ⟨-, hds⟩ | ⟨-, hds⟩ <;> rw [hd] at hds
        · exact (Utils.wrap_ne s).1 hds.symm
        · exact (Utils.wrap_ne s).2.1 hds.symm
        · exact (Utils.wrap_ne s).2.2 hds.symm
      · exact (Utils.shouldDecode_false_iff status headers).mp
          (Bool.eq_false_iff.mpr hsd)
    · intro hr
      have hsd : Utils.shouldDecode status headers = false :=
        (Utils.shouldDecode_false_iff status headers).mpr hr
      unfold Utils.decodeStream
      rw [hsd]
      rfl
  · exact hwrap status headers

/-- Witness for C8: a gzip-encoded 200 response is wrapped with the
gunzip decoder. -/
theorem claim_C8_witness :
    ((Utils.decodeStream 200 [("content-encoding", "gzip")] (.source 0) = .source 0 ↔
      ((200 : Nat) = 204 ∨ (200 : Nat) = 304 ∨
       Utils.jsPlusEqZero (hdrGet [("content-encoding", "gzip")] "content-length") = true ∨
       ∀ enc, hdrGet [("content-encoding", "gzip")] "content-encoding" = some enc →
         ¬ jsTrim enc ∈ Utils.encodingTokens)))
    ∧ ∃ enc, hdrGet [("content-encoding", "gzip")] "content-encoding" = some enc ∧
         (((jsTrim enc = "gzip" ∨ jsTrim enc = "x-gzip") ∧
            Utils.decodeStream 200 [("content-encoding", "gzip")] (.source 0) =
              .gunzip (.source 0)) ∨
          ((jsTrim enc = "deflate" ∨ jsTrim enc = "x-deflate") ∧
            Utils.decodeStream 200 [("content-encoding", "gzip")] (.source 0) =
              .inflate (.source 0)) ∨
          (jsTrim enc = "br" ∧
            Utils.decodeStream 200 [("content-encoding", "gzip")] (.source 0) =
              .brotli (.source 0))) :=
  ⟨(claim_C8_decode_stream 200 [("content-encoding", "gzip")] (.source 0)).1,
   (claim_C8_decode_stream 200 [("content-encoding", "gzip")] (.source 0)).2 (by decide)⟩

/-- Claim C9: a request whose abort signal has already fired before
dispatch makes `fetch` throw the abort error at
`src/fetch/index.js:39-47`, before the single core `request` call, so no
transport dispatch (and hence no socket) is consumed. -/
theorem claim_C9_abort_before_dispatch (req : FetchAPI.RequestM) (sg : FetchAPI.Signal)
    (hsig : req.signal = some sg) (hab : sg.aborted = true) :
    FetchAPI.preflight req = (FetchAPI.Preflight.abortError, 0) := by
  unfold FetchAPI.preflight
  rw [hsig]
  simp [hab]

/-- Claim C10: constructing a `Request` whose method normalizes to GET or
HEAD while supplying a non-null body throws a `TypeError`
(`src/fetch/request.js:270-274`), and a successfully constructed GET or
HEAD request always carries a null body. -/
theorem claim_C10_get_head_no_body :
    (∀ (input : Sum String FetchAPI.RequestM) (init : FetchAPI.InitOptions),
      init.body.nonNull = true →
      (FetchAPI.normMethod input init = "GET" ∨ FetchAPI.normMethod input init = "HEAD") →
      FetchAPI.makeRequest input init =
        Except.error "TypeError: Request with GET/HEAD method cannot have body")
    ∧ (∀ (input : Sum String FetchAPI.RequestM) (init : FetchAPI.InitOptions)
        (r : FetchAPI.RequestM), FetchAPI.makeRequest input init = Except.ok r →
      (r.method = "GET" ∨ r.method = "HEAD") → r.body = JSBody.jsNull) := by
  constructor
  · intro input init h1 hm
    have hg : FetchAPI.getHeadBodyGuard input init = true := by
      unfold FetchAPI.getHeadBodyGuard
      rw [h1]
      rcases hm with hm | hm <;> simp [hm]
    simp [FetchAPI.makeRequest, hg]
  · intro input init r hok hm
    by_cases hg : FetchAPI.getHeadBodyGuard input init = true
    · simp [FetchAPI.makeRequest, hg] at hok
    · have hg' : FetchAPI.getHeadBodyGuard input init = false :=
        Bool.eq_false_iff.mpr hg
      cases input with
      | inl u =>
          have hr : r.method = FetchAPI.normMethod (Sum.inl u) init := by
            simp [FetchAPI.makeRequest, hg'] at hok
            rw [← hok]
          have hsecond : (decide (FetchAPI.normMethod (Sum.inl u) init = "GET") ||
              decide (FetchAPI.normMethod (Sum.inl u) init = "HEAD")) = true := by
            rw [hr] at hm
            rcases hm with hm | hm <;> simp [hm]
          have hA : init.body.nonNull = false := by
            unfold FetchAPI.getHeadBodyGuard at hg'
            rw [hsecond] at hg'
            simpa using hg'
          have htr : init.body.truthy = false :=
            FetchAPI.truthy_false_of_nonNull_false _ hA
          simp [FetchAPI.makeRequest, hg', htr] at hok
          rw [← hok]
      | inr rIn =>
          have hr : r.method = FetchAPI.normMethod (Sum.inr rIn) init := by
            simp [FetchAPI.makeRequest, hg'] at hok
            rw [← hok]
          have hsecond : (decide (FetchAPI.normMethod (Sum.inr rIn) init = "GET") ||
              decide (FetchAPI.normMethod (Sum.inr rIn) init = "HEAD")) = true := by
            rw [hr] at hm
            rcases hm with hm | hm <;> simp [hm]
          have hAB : (init.body.nonNull || !decide (rIn.body = JSBody.jsNull)) = false := by
            unfold FetchAPI.getHeadBodyGuard at hg'
            rw [hsecond] at hg'
            simpa using hg'
          have hA : init.body.nonNull = false := (Bool.or_eq_false_iff.mp hAB).1
          have hBn : rIn.body = JSBody.jsNull := by
            have := (Bool.or_eq_false_iff.mp hAB).2
            simpa using this
          have htr : init.body.truthy = false :=
            FetchAPI.truthy_false_of_nonNull_false _ hA
          simp [FetchAPI.makeRequest, hg', htr, hBn, truthy_jsNull] at hok
          rw [← hok]

/-- Witness for C10: a GET with a string body is rejected with the
TypeError, and a plain GET construction yields a null body. -/
theorem claim_C10_witness :
    FetchAPI.makeRequest (Sum.inl "https://example.com/")
        { method := some "get", body := .str "hi" } =
      Except.error "TypeError: Request with GET/HEAD method cannot have body"
    ∧ (FetchAPI.makeRequest (Sum.inl "https://example.com/")
        { } = Except.ok
          { method := "GET", url := "https://example.com/", headers := [],
            redirect := "follow", counter := 0, body := .jsNull, signal := none } →
        ({ method := "GET", url := "https://example.com/", headers := [],
            redirect := "follow", counter := 0, body := .jsNull,
            signal := none } : FetchAPI.RequestM).body = JSBody.jsNull) :=
  ⟨claim_C10_get_head_no_body.1 (Sum.inl "https://example.com/")
      { method := some "get", body := .str "hi" } (by decide) (Or.inl (by decide)),
   fun hok => claim_C10_get_head_no_body.2 (Sum.inl "https://example.com/") { } _
      hok (Or.inl rfl)⟩

/-- Claim C3: on a followed redirect, when the status is 303, or is 301
or 302 with original method POST, the new request is dispatched with
method GET, no body and no `content-length` header
(`src/fetch/index.js:159-164`); for every other followed status the
request options preserve the method and body. -/
theorem claim_C3_redirect_method_rewrite
    (req : FetchAPI.RequestM) (optionsBody : JSBody) (status : Nat)
    (headers : HeaderMap) (loc : String)
    (hred : req.redirect = "follow")
    (hstatus : status = 301 ∨ status = 302 ∨ status = 303 ∨ status = 307 ∨ status = 308)
    (hloc : hdrGet headers "location" = some loc)
    (hstream : status = 303 ∨ req.body.truthy = false ∨ optionsBody.isReadable = false)
    (hlower : ∀ kv ∈ req.headers, jsToLower kv.1 = kv.1) :
    ((status = 303 ∨ ((status = 301 ∨ status = 302) ∧ req.method = "POST")) →
      FetchAPI.handleResponse req optionsBody status headers =
        FetchAPI.Outcome.dispatchRedirect (FetchAPI.resolveURL req.url loc)
          { headers := some (hdrDelete req.headers "content-length"),
            counter := some (req.counter + 1), method := some "GET",
            body := .undef, signalField := some req.signal }
      ∧ ∀ r2, FetchAPI.makeRequest (Sum.inl (FetchAPI.resolveURL req.url loc))
            { headers := some (hdrDelete req.headers "content-length"),
              counter := some (req.counter + 1), method := some "GET",
              body := .undef, signalField := some req.signal } = Except.ok r2 →
          r2.method = "GET" ∧ r2.body = JSBody.jsNull ∧
            hdrGet r2.headers "content-length" = none)
    ∧ (¬(status = 303 ∨ ((status = 301 ∨ status = 302) ∧ req.method = "POST")) →
      FetchAPI.handleResponse req optionsBody status headers =
        FetchAPI.Outcome.dispatchRedirect (FetchAPI.resolveURL req.url loc)
          { headers := some req.headers, counter := some (req.counter + 1),
            method := some req.method, body := req.body,
            signalField := some req.signal }) := by
  have hguard : (!(decide (status = 303)) && req.body.truthy &&
      optionsBody.isReadable) = false := by
    rcases hstream with h | h | h <;> simp [h]
  have hbase := FetchAPI.handleResponse_follow_eq req optionsBody status headers loc
    hred hstatus hloc
  rw [hguard] at hbase
  simp only [Bool.false_eq_true, if_false] at hbase
  constructor
  · intro hA
    have hcond : (decide (status = 303) ||
        ((decide (status = 301) || decide (status = 302)) &&
          decide (req.method = "POST"))) = true := by
      rcases hA with h | ⟨h1, h2⟩
      · simp [h]
      · rcases h1 with h1 | h1 <;> simp [h1, h2]
    rw [hcond] at hbase
    simp only [if_true] at hbase
    refine ⟨hbase, ?_⟩
    intro r2 hok
    have hnm : FetchAPI.normMethod (Sum.inl (FetchAPI.resolveURL req.url loc))
        { headers := some (hdrDelete req.headers "content-length"),
          counter := some (req.counter + 1), method := some "GET",
          body := .undef, signalField := some req.signal } = "GET" := by
      simp [FetchAPI.normMethod, FetchAPI.jsOrStr]
      decide
    have hg : FetchAPI.getHeadBodyGuard (Sum.inl (FetchAPI.resolveURL req.url loc))
        { headers := some (hdrDelete req.headers "content-length"),
          counter := some (req.counter + 1), method := some "GET",
          body := .undef, signalField := some req.signal } = false := by
      simp [FetchAPI.getHeadBodyGuard, JSBody.nonNull]
    simp [FetchAPI.makeRequest, hg, JSBody.truthy] at hok
    have hheaders : r2.headers =
        FetchAPI.headersFromList (hdrDelete req.headers "content-length") := by
      rw [← hok]
    refine ⟨by rw [← hok]; exact hnm, by rw [← hok], ?_⟩
    rw [hheaders]
    refine FetchAPI.headersFromList_get_none _ _ ?_
    intro kv hkv
    obtain ⟨hmem, hne⟩ := mem_hdrDelete _ _ _ hkv
    rw [hlower kv hmem]
    exact hne
  · intro hB
    have hcond : (decide (status = 303) ||
        ((decide (status = 301) || decide (status = 302)) &&
          decide (req.method = "POST"))) = false := by
      rcases hstatus with rfl | rfl | rfl | rfl | rfl
      · have hm : ¬ req.method = "POST" := fun hm => hB (Or.inr ⟨Or.inl rfl, hm⟩)
        simp [hm]
      · have hm : ¬ req.method = "POST" := fun hm => hB (Or.inr ⟨Or.inr rfl, hm⟩)
        simp [hm]
      · exact absurd (Or.inl rfl) hB
      · simp
      · simp
    rw [hcond] at hbase
    simpa using hbase

/-- Witness for C3 at a concrete 303 POST with a buffer body: the
redirect is dispatched as a GET without body or content-length, and one
non-rewriting case (307 with a string body) preserves method and
body. -/
theorem claim_C3_witness :
    FetchAPI.handleResponse
        { method := "POST", url := "https://a/", headers := [("content-length", "3")],
          redirect := "follow", counter := 0, body := .buffer [1, 2, 3], signal := none }
        (.buffer [1, 2, 3]) 303 [("location", "https://b/")] =
      FetchAPI.Outcome.dispatchRedirect (FetchAPI.resolveURL "https://a/" "https://b/")
        { headers := some (hdrDelete [("content-length", "3")] "content-length"),
          counter := some 1, method := some "GET", body := .undef,
          signalField := some none }
    ∧ FetchAPI.handleResponse
        { method := "PUT", url := "https://a/", headers := [],
          redirect := "follow", counter := 0, body := .str "hi", signal := none }
        (.str "hi") 307 [("location", "https://b/")] =
      FetchAPI.Outcome.dispatchRedirect (FetchAPI.resolveURL "https://a/" "https://b/")
        { headers := some [], counter := some 1, method := some "PUT",
          body := .str "hi", signalField := some none } :=
  ⟨((claim_C3_redirect_method_rewrite
      { method := "POST", url := "https://a/", headers := [("content-length", "3")],
        redirect := "follow", counter := 0, body := .buffer [1, 2, 3], signal := none }
      (.buffer [1, 2, 3]) 303 [("location", "https://b/")] "https://b/"
      rfl (Or.inr (Or.inr (Or.inl rfl))) (by decide) (Or.inl rfl) (by decide)).1
    (Or.inl rfl)).1,
   (claim_C3_redirect_method_rewrite
      { method := "PUT", url := "https://a/", headers := [],
        redirect := "follow", counter := 0, body := .str "hi", signal := none }
      (.str "hi") 307 [("location", "https://b/")] "https://b/"
      rfl (Or.inr (Or.inr (Or.inr (Or.inl rfl)))) (by decide)
      (Or.inr (Or.inr (by decide))) (by decide)).2 (by decide)⟩

/-- Claim C4: a followed redirect whose status is not 303 with a
readable-stream body fails with the unsupported-redirect error instead
of being re-dispatched (`src/fetch/index.js:150-157`). -/
theorem claim_C4_stream_body_unsupported
    (req : FetchAPI.RequestM) (optionsBody : JSBody) (status : Nat)
    (headers : HeaderMap) (loc : String)
    (hred : req.redirect = "follow")
    (hstatus : status = 301 ∨ status = 302 ∨ status = 307 ∨ status = 308)
    (hloc : hdrGet headers "location" = some loc)
    (hbody : req.body.isReadable = true)
    (hopts : optionsBody.isReadable = true) :
    FetchAPI.handleResponse req optionsBody status headers =
      FetchAPI.Outcome.failure "unsupported-redirect" := by
  have htop : status = 301 ∨ status = 302 ∨ status = 303 ∨ status = 307 ∨ status = 308 := by
    rcases hstatus with h | h | h | h
    · exact Or.inl h
    · exact Or.inr (Or.inl h)
    · exact Or.inr (Or.inr (Or.inr (Or.inl h)))
    · exact Or.inr (Or.inr (Or.inr (Or.inr h)))
  have htruthy : req.body.truthy = true := by
    cases hb : req.body <;>
      · rw [hb] at hbody
        simp [JSBody.isReadable] at hbody
        try simp [JSBody.truthy]
  have hguard : (!(decide (status = 303)) && req.body.truthy &&
      optionsBody.isReadable) = true := by
    rcases hstatus with rfl | rfl | rfl | rfl <;> simp [htruthy, hopts]
  have hbase := FetchAPI.handleResponse_follow_eq req optionsBody status headers loc
    hred htop hloc
  rw [hguard] at hbase
  simpa using hbase

/-- Witness for C4 at a concrete 307 POST with a stream body. -/
theorem claim_C4_witness :
    FetchAPI.handleResponse
      { method := "POST", url := "https://a/", headers := [],
        redirect := "follow", counter := 0, body := .readable 7, signal := none }
      (.readable 7) 307 [("location", "https://b/")] =
      FetchAPI.Outcome.failure "unsupported-redirect" :=
  claim_C4_stream_body_unsupported
    { method := "POST", url := "https://a/", headers := [],
      redirect := "follow", counter := 0, body := .readable 7, signal := none }
    (.readable 7) 307 [("location", "https://b/")] "https://b/"
    rfl (Or.inr (Or.inr (Or.inl rfl))) (by decide) rfl rfl

/-- Claim C5: the H2 session cache holds at most one session (hence at
most one non-closed session) per origin in every reachable state; the
transport reuses a cached session exactly when it is present and not
closed (`src/core/h2.js:156-208`); a closed cached session is replaced
by the freshly inserted one; and the close listener removes the closing
session's origin entry from the cache (`src/core/h2.js:182-185`). -/
theorem claim_C5_session_cache_unique :
    (∀ (events : List H2.Event) (origin : String),
      H2.originCount (H2.run events) origin ≤ 1)
    ∧ (∀ (s : H2.State) (origin : String) (sid : Nat),
      s.cached origin = some sid → s.isClosed sid = false →
      H2.acquire s origin = (s, sid))
    ∧ (∀ (s : H2.State) (origin : String) (sid : Nat),
      s.cached origin = some sid → s.isClosed sid = true →
      (H2.acquire s origin).1.cached origin = some s.nextSid)
    ∧ (∀ (s : H2.State) (sid : Nat) (ss : H2.Session),
      s.sessions.find? (fun x => x.sid = sid) = some ss →
      (H2.step s (H2.Event.closeEmitted sid)).cached ss.origin = none) := by
  refine ⟨H2.run_originCount, ?_, ?_, ?_⟩
  · intro s origin sid h1 h2
    unfold H2.acquire
    rw [h1]
    simp [h2]
  · intro s origin sid h1 h2
    unfold H2.acquire
    rw [h1]
    simp [h2, H2.State.cached, H2.cacheSet]
  · intro s sid ss hf
    show (match s.sessions.find? fun x : H2.Session => x.sid = sid with
          | some ss2 => { s with sessionCache := H2.cacheDelete s.sessionCache ss2.origin }
          | none => s).cached ss.origin = none
    rw [hf]
    dsimp only
    unfold H2.State.cached H2.cacheDelete
    rw [PolyFetch.find?_filter_ne]
    rfl

/-- Witness for C5 at concrete states: a one-request run, reuse of a live
cached session, replacement of a closed one, and removal on the close
event. -/
theorem claim_C5_witness :
    H2.originCount (H2.run [H2.Event.request "https://e.com"]) "https://e.com" ≤ 1
    ∧ H2.acquire
        { sessionCache := [("https://e.com", 0)],
          sessions := [{ sid := 0, origin := "https://e.com", closed := false }],
          nextSid := 1 } "https://e.com" =
      ({ sessionCache := [("https://e.com", 0)],
         sessions := [{ sid := 0, origin := "https://e.com", closed := false }],
         nextSid := 1 }, 0)
    ∧ (H2.acquire
        { sessionCache := [("https://e.com", 0)],
          sessions := [{ sid := 0, origin := "https://e.com", closed := true }],
          nextSid := 1 } "https://e.com").1.cached "https://e.com" = some 1
    ∧ (H2.step
        { sessionCache := [("https://e.com", 0)],
          sessions := [{ sid := 0, origin := "https://e.com", closed := false }],
          nextSid := 1 } (H2.Event.closeEmitted 0)).cached "https://e.com" = none :=
  ⟨claim_C5_session_cache_unique.1 [H2.Event.request "https://e.com"] "https://e.com",
   claim_C5_session_cache_unique.2.1 _ "https://e.com" 0 (by decide) (by decide),
   claim_C5_session_cache_unique.2.2.1 _ "https://e.com" 0 (by decide) (by decide),
   claim_C5_session_cache_unique.2.2.2 _ 0
     { sid := 0, origin := "https://e.com", closed := false } (by decide)⟩

/-- Claim C6: on the spec-modelled ALPN cache, every hit returns a
protocol that some `set` stored for that origin within the TTL window
(expired entries are never returned), and when every stored protocol is
one the peer advertised (or a synthetic seed of `determineProtocol`,
`src/request.js:83-117`), so is the returned one. -/
theorem claim_C6_alpn_cache_ttl (maxAge maxSize : Nat) (advertised : String → Prop)
    (ops : List (String × String × Nat))
    (hops : ∀ op ∈ ops, Alpn.StoredProtocol advertised op.2.1)
    (origin p : String) (now : Nat)
    (h : (Alpn.runSets { maxAge := maxAge, maxSize := maxSize } ops).get origin now =
      some p) :
    Alpn.StoredProtocol advertised p ∧
      ∃ t, (origin, p, t) ∈ ops ∧ now ≤ t + maxAge := by
  have hma : (Alpn.runSets { maxAge := maxAge, maxSize := maxSize } ops).maxAge = maxAge :=
    Alpn.runSets_maxAge _ ops
  obtain ⟨t, hmem, hfresh⟩ := Alpn.get_fresh _ origin now p h
  rw [hma] at hfresh
  rcases Alpn.runSets_entries _ ops _ hmem with h0 | h0
  · exact absurd h0 (by simp)
  · exact ⟨by simpa using hops _ h0, t, h0, hfresh⟩

/-- Witness for C6: a single negotiated entry within TTL is returned and
traced back to its `set`. -/
theorem claim_C6_witness :
    Alpn.StoredProtocol (fun q => q = "h2") "h2" ∧
      ∃ t, ("https://x", "h2", t) ∈ [("https://x", "h2", 5)] ∧ (10 : Nat) ≤ t + 3600000 :=
  claim_C6_alpn_cache_ttl 3600000 100 (fun q => q = "h2") [("https://x", "h2", 5)]
    (by
      intro op hop
      simp at hop
      rw [hop]
      exact Alpn.StoredProtocol.negotiated "h2" rfl)
    "https://x" "h2" 10 (by decide)

/-- Witness for C9 at a concrete aborted request. -/
theorem claim_C9_witness :
    FetchAPI.preflight
      { method := "GET", url := "https://example.com/", headers := [],
        redirect := "follow", counter := 0, body := .jsNull,
        signal := some { aborted := true } } =
      (FetchAPI.Preflight.abortError, 0) :=
  claim_C9_abort_before_dispatch _ { aborted := true } rfl rfl

end PolyFetch
